import Mathlib

/-!
Verification of the Di-hydro preprocessing utilities.

This file gives a shallow embedding of the data-transforming parts of the
repository (src/utils/preproc_utils.py, src/utils/import_data_utils.py,
src/utils/img_to_csv_utils.py and the merge step of src/preprocessing.py)
and proves the documented properties about them.

Modelling conventions:
* An xarray dataset is a list of parsed `valid_time` values together with an
  association list from variable names to the per-timestep 2D grids of that
  variable (a grid is a list of latitude rows, each a list of rational cell
  values).  Timestamps are the parsed `pd.to_datetime` values, modelled as
  naturals; cell values are rationals.
* Fallible Python code is embedded as `Except`: `PyErr.nameError` stands for a
  `NameError` (use of a never-bound local), `PyErr.valueError` for `ValueError`
  and `PyErr.indexError` for an out-of-range index.
* `print`-only warnings are returned as an explicit `Bool` flag.
-/

namespace DiHydro

/-- A 2D grid: rows are latitudes (north to south), columns longitudes. -/
abbrev Grid2 := List (List Rat)

/-- Errors raised by the embedded Python code. -/
inductive PyErr where
  | nameError
  | valueError
  | indexError
deriving Repr, DecidableEq

/-- An opened xarray dataset: `valid_time` values plus, per variable name,
the 2D grid at each timestep (`ds[name]` has shape (time, lat, lon)). -/
structure Dataset where
  times : List Nat
  vars : List (String × List Grid2)
deriving Repr, DecidableEq

/-- `variable_name in ds` / `ds[variable_name]`: association-list lookup of a
variable in a dataset. -/
def lookupVar (vars : List (String × List Grid2)) (name : String) :
    Option (List Grid2) :=
  match vars with
  | [] => none
  | (n, g) :: rest => if n = name then some g else lookupVar rest name

/-- One output record of `flat_ERA5_data`: the `"datetime"` entry of the
Python dict is the `dt` field, the `f"{variable_name}_{j}"` entries are the
`fields` list. -/
structure Record where
  dt : Nat
  fields : List (String × Rat)
deriving Repr, DecidableEq

/-- Builds `{"datetime": t, f"{v}_0": flat[0], ...}` from one timestep. -/
def mkRecord (variableName : String) (t : Nat) (flat : List Rat) : Record :=
  { dt := t
  , fields := flat.enum.map (fun jv => (variableName ++ "_" ++ toString jv.1, jv.2)) }

/-- `flat_ERA5_data(file_path, variable_name, dimension)` from
src/utils/preproc_utils.py.  `dsOpt = none` models `xr.open_dataset` raising:
the exception is caught and printed, so `ds` is never bound and the following
`variable_name not in ds` raises a `NameError`.  A missing variable raises a
`ValueError`.  The loop flattens the grid of each timestep; the post-loop
dimension check reads the loop variable `flat`, so with zero timesteps it
raises a `NameError`, and otherwise compares the length of the *last*
timestep's flattened grid with `dimension`, printing a warning (the returned
`Bool`) on mismatch. -/
def flat_ERA5_data (dsOpt : Option Dataset) (variableName : String)
    (dimension : Nat) : Except PyErr (List Record × Bool) :=
  match dsOpt with
  | none => Except.error PyErr.nameError
  | some ds =>
    match lookupVar ds.vars variableName with
    | none => Except.error PyErr.valueError
    | some grids =>
      if ds.times.length ≤ grids.length then
        let pairs := ds.times.zip grids
        let recs := pairs.map (fun p => mkRecord variableName p.1 p.2.flatten)
        match pairs.getLast? with
        | none => Except.error PyErr.nameError
        | some p => Except.ok (recs, decide (p.2.flatten.length ≠ dimension))
      else Except.error PyErr.indexError

/-- The inner time loop of `tensor_ERA5_pytorch`: for `i in
range(var_vals.shape[0])` append `grid[np.newaxis, :, :]` (modelled as the
singleton list `[g]`) to the tensor list and `time_vals[i]` to the timestamp
list; indexing `time_vals[i]` past the end raises an `IndexError`. -/
def sliceSteps : List Grid2 → List Nat →
    Except PyErr (List (List Grid2) × List Nat)
  | [], _ => Except.ok ([], [])
  | _ :: _, [] => Except.error PyErr.indexError
  | g :: gs, t :: ts =>
    match sliceSteps gs ts with
    | Except.error e => Except.error e
    | Except.ok (a, b) => Except.ok ([g] :: a, t :: b)

/-- Processing of one `.nc` file inside the walk loop of
`tensor_ERA5_pytorch`: files lacking the variable are skipped (`continue`),
otherwise every timestep contributes one tensor slice and one timestamp. -/
def tensorStep (variableName : String)
    (acc : Except PyErr (List (List Grid2) × List Nat)) (ds : Dataset) :
    Except PyErr (List (List Grid2) × List Nat) :=
  match acc with
  | Except.error e => Except.error e
  | Except.ok (ts, tss) =>
    match lookupVar ds.vars variableName with
    | none => Except.ok (ts, tss)
    | some grids =>
      match sliceSteps grids ds.times with
      | Except.error e => Except.error e
      | Except.ok (a, b) => Except.ok (ts ++ a, tss ++ b)

/-- `tensor_ERA5_pytorch(main_dir, variable)` from src/utils/preproc_utils.py.
`files` is the list of `.nc` datasets in directory-walk order.  After the
walk, `np.stack(tensors)` raises a `ValueError` when `tensors` is empty. -/
def tensor_ERA5_pytorch (files : List Dataset) (variableName : String) :
    Except PyErr (List (List Grid2) × List Nat) :=
  match files.foldl (tensorStep variableName) (Except.ok ([], [])) with
  | Except.error e => Except.error e
  | Except.ok (tensors, timestamps) =>
    if tensors.isEmpty then Except.error PyErr.valueError
    else Except.ok (tensors, timestamps)

/-- One CSV row read by `filter_river_data`: `dt` is the parsed
`pd.to_datetime(df['sdate'] + ' ' + df['stime'])` value, `battery` and
`level` the measurement columns. -/
structure RiverRow where
  dt : Nat
  battery : Rat
  level : Rat
deriving Repr, DecidableEq

/-- The row filter of `filter_river_data`:
`(df['battery'] >= battery_treshold) & (df['level'] >= 0)`. -/
def river_keep (battery_treshold : Rat) (r : RiverRow) : Bool :=
  decide (battery_treshold ≤ r.battery) && decide (0 ≤ r.level)

/-- The per-file dataframes appended to `dfs` inside the walk loop of
`filter_river_data`: each matched file is filtered and projected to its
`(datetime, level)` columns (the level column is then merely renamed). -/
def river_frames (files : List (List RiverRow)) (battery_treshold : Rat) :
    List (List (Nat × Rat)) :=
  files.map (fun df => (df.filter (river_keep battery_treshold)).map
    (fun r => (r.dt, r.level)))

/-- `DataFrame.drop_duplicates('datetime')` with the default `keep='first'`:
a row is kept when no earlier row has the same datetime. -/
def dropDupFirst (seen : List Nat) : List (Nat × Rat) → List (Nat × Rat)
  | [] => []
  | r :: rs =>
    if r.1 ∈ seen then dropDupFirst seen rs
    else r :: dropDupFirst (r.1 :: seen) rs

/-- `filter_river_data(main_dir, river_code, battery_treshold)` from
src/utils/preproc_utils.py.  `files` holds, in directory-walk order, the rows
of every CSV file whose name matches the station code; when no file matched
(`dfs` empty) the function returns `None`, otherwise
`pd.concat(dfs).drop_duplicates('datetime')`. -/
def filter_river_data (files : List (List RiverRow))
    (battery_treshold : Rat) : Option (List (Nat × Rat)) :=
  let dfs := river_frames files battery_treshold
  if dfs.isEmpty then none
  else some (dropDupFirst [] dfs.flatten)

/-- A dataframe in the merge step of src/preprocessing.py: a `datetime` key
column plus `width` value columns (an absent value after an outer join is
`none`, i.e. `NaN`). -/
structure MTable where
  width : Nat
  rows : List (Nat × List (Option Rat))
deriving Repr, DecidableEq

/-- The rows that one left row contributes to
`pd.merge(left, right, on="datetime", how="outer")`: one joined row per
matching right row, or the left row padded with `NaN` when the right table
has no row with that datetime. -/
def mergeLeftRow (R : MTable) (l : Nat × List (Option Rat)) :
    List (Nat × List (Option Rat)) :=
  let ms := R.rows.filter (fun r => r.1 == l.1)
  if ms.isEmpty then [(l.1, l.2 ++ List.replicate R.width (none : Option Rat))]
  else ms.map (fun r => (l.1, l.2 ++ r.2))

/-- The right rows of an outer merge whose datetime occurs nowhere in the
left table, padded with `NaN` on the left. -/
def unmatchedRight (L R : MTable) : List (Nat × List (Option Rat)) :=
  (R.rows.filter (fun r => L.rows.all (fun l => l.1 != r.1))).map
    (fun r => (r.1, List.replicate L.width (none : Option Rat) ++ r.2))

/-- `pd.merge(left, right, on="datetime", how="outer")`. -/
def outerMerge (L R : MTable) : MTable :=
  { width := L.width + R.width
  , rows := L.rows.flatMap (mergeLeftRow R) ++ unmatchedRight L R }

/-- Insertion step of the ascending sort on the `datetime` column. -/
def insertRow (r : Nat × List (Option Rat)) :
    List (Nat × List (Option Rat)) → List (Nat × List (Option Rat))
  | [] => [r]
  | x :: xs => if r.1 ≤ x.1 then r :: x :: xs else x :: insertRow r xs

/-- `DataFrame.sort_values("datetime")`: ascending sort on the key column. -/
def sortRows : List (Nat × List (Option Rat)) → List (Nat × List (Option Rat))
  | [] => []
  | x :: xs => insertRow x (sortRows xs)

/-- The merge step of src/preprocessing.py:
`reduce(lambda l, r: pd.merge(l, r, on="datetime", how="outer"), all_river_dfs)`
followed by `sort_values("datetime")`.  `functools.reduce` on an empty list
raises, hence the `Option`. -/
def merged_df (dfs : List MTable) : Option MTable :=
  match dfs with
  | [] => none
  | d :: ds =>
    let m := ds.foldl outerMerge d
    some { width := m.width, rows := sortRows m.rows }

/-- A station entry of the `ahs_list` field of the resolver's JSON body. -/
structure StationEntry where
  id : String
  name : String
  basin : String
deriving Repr, DecidableEq

/-- The value type of the station map: `{"name": ..., "basin": ...}`. -/
structure StationInfo where
  name : String
  basin : String
deriving Repr, DecidableEq

/-- Python dict insertion: an existing key keeps its position and gets the
new value, a new key is appended. -/
def dictInsert (d : List (String × StationInfo)) (k : String)
    (v : StationInfo) : List (String × StationInfo) :=
  match d with
  | [] => [(k, v)]
  | (k0, v0) :: rest =>
    if k0 = k then (k, v) :: rest else (k0, v0) :: dictInsert rest k v

/-- The dict comprehension of `get_station_id_basin_map` in
src/utils/import_data_utils.py:
`{entry["id"]: {"name": entry["name"], "basin": entry["basin"]} for entry in station_list}`.
The claim's scope is a successful fetch whose body holds the entry list, so
the embedding takes `station_list` directly. -/
def get_station_id_basin_map (station_list : List StationEntry) :
    List (String × StationInfo) :=
  station_list.foldl
    (fun acc e => dictInsert acc e.id { name := e.name, basin := e.basin }) []

/-- The column rename of `save_daily_data`:
`df.rename(columns={"kota": "elev"}, inplace=True)`. -/
def renameKota (cols : List String) : List String :=
  cols.map (fun c => if c = "kota" then "elev" else c)

/-- `save_daily_data(data, station_id, date, data_dir, format)` from
src/utils/import_data_utils.py, on a body whose `rec` table has columns
`recCols` (`dateYMD` is `date.strftime('%Y%m%d')`).  A supported format
writes exactly one file, returned here as its name together with the written
table's columns; any other format raises a `ValueError` after the in-memory
rename, with no file written. -/
def save_daily_data (recCols : List String) (station_id : String)
    (dateYMD : String) (format : String) :
    Except String (String × List String) :=
  let cols := renameKota recCols
  if format = "csv" then
    Except.ok ("station_" ++ station_id ++ "_" ++ dateYMD ++ ".csv", cols)
  else if format = "parquet" then
    Except.ok ("station_" ++ station_id ++ "_" ++ dateYMD ++ ".parquet", cols)
  else
    Except.error ("Format " ++ format ++ " cannot be selected, Please choose between csv and parquet.")

/-- `\d` on a character (ASCII digits, as produced by the OCR text). -/
def isDig (c : Char) : Bool := c.isDigit

/-- `os.path.basename`: the part of the path after the last slash. -/
def basename (path : String) : String :=
  String.mk ((path.toList.reverse.takeWhile (fun c => c != '/')).reverse)

/-- A match of `Protok_(\d{2})\.(\d{2})\.(\d{4})` anchored at the head of the
character list; on success, the groups are assembled into the
`f"{group(3)}-{group(2)}-{group(1)}"` date string. -/
def protokDateAt : List Char → Option String
  | 'P' :: 'r' :: 'o' :: 't' :: 'o' :: 'k' :: '_' :: d1 :: d2 :: '.' :: m1 :: m2 :: '.' :: y1 :: y2 :: y3 :: y4 :: _ =>
    if isDig d1 && isDig d2 && isDig m1 && isDig m2 &&
        isDig y1 && isDig y2 && isDig y3 && isDig y4 then
      some (String.mk [y1, y2, y3, y4, '-', m1, m2, '-', d1, d2])
    else none
  | _ => none

/-- `re.search(r"Protok_(\d{2})\.(\d{2})\.(\d{4})", s)`: try the pattern at
every position, leftmost match first. -/
def searchProtokDate : List Char → Option String
  | [] => none
  | c :: rest =>
    match protokDateAt (c :: rest) with
    | some s => some s
    | none => searchProtokDate rest

/-- One match of `\d+\.\d{1,2}` anchored at the head of the character list:
a maximal nonempty digit run, a dot, then greedily one or two digits.
Returns the matched text and the remaining characters (`re.findall` resumes
after the match). -/
def numMatchAt (l : List Char) : Option (String × List Char) :=
  let ds := l.takeWhile isDig
  let r := l.dropWhile isDig
  if ds.isEmpty then none
  else
    match r with
    | '.' :: r2 =>
      let fs := r2.takeWhile isDig
      if fs.isEmpty then none
      else some (String.mk (ds ++ '.' :: fs.take 2), fs.drop 2 ++ r2.dropWhile isDig)
    | _ => none

/-- `re.findall(r'\d+\.\d{1,2}', line)`: non-overlapping leftmost matches;
when no match starts at a position the scan advances one character.  The
fuel starts at the list length and each step consumes at least one
character, so it never runs out. -/
def findallNums : Nat → List Char → List String
  | 0, _ => []
  | _, [] => []
  | Nat.succ fuel, c :: rest =>
    match numMatchAt (c :: rest) with
    | some (m, r) => m :: findallNums fuel r
    | none => findallNums fuel rest

/-- The decimal numbers `re.findall` extracts from one recognized line. -/
def lineNums (line : String) : List String :=
  findallNums line.toList.length line.toList

/-- `extract_protok_data(image_path)` from src/utils/img_to_csv_utils.py.
The OCR output `pytesseract.image_to_string(...).splitlines()` is external
input, passed as `ocrLines`.  A filename without the date pattern returns
`[]`; otherwise every line with at least two extracted numbers contributes
`[date_str] + match[:3]`, and only the first 24 rows are returned. -/
def extract_protok_data (image_path : String) (ocrLines : List String) :
    List (List String) :=
  match searchProtokDate (basename image_path).toList with
  | none => []
  | some date_str =>
    (ocrLines.filterMap (fun line =>
      let m := lineNums line
      if 2 ≤ m.length then some (date_str :: m.take 3) else none)).take 24

/-- Example grids for concrete runs: two timesteps of a 2×2 grid. -/
def gridsEx : List Grid2 := [[[1, 2], [3, 4]], [[5, 6], [7, 8]]]

/-- Example dataset holding `gridsEx` under the variable name `t2m`. -/
def dsEx : Dataset := { times := [10, 20], vars := [("t2m", gridsEx)] }

/-!  ## Lemmas about `flat_ERA5_data`  -/

theorem flatten_length_uniform (g : Grid2) (W : Nat)
    (hW : ∀ row ∈ g, row.length = W) : g.flatten.length = g.length * W := by
  induction g with
  | nil => simp
  | cons r rs ih =>
    simp only [List.flatten_cons, List.length_append, List.length_cons]
    rw [hW r (by simp), ih (fun row hrow => hW row (by simp [hrow]))]
    ring

theorem mkRecord_fields_length (variableName : String) (t : Nat)
    (flat : List Rat) : (mkRecord variableName t flat).fields.length = flat.length := by
  simp [mkRecord]

theorem flat_ERA5_data_ok (times : List Nat) (grids : List Grid2)
    (vars : List (String × List Grid2)) (variableName : String) (dimension : Nat)
    (hvar : lookupVar vars variableName = some grids)
    (hT : 1 ≤ times.length) (hlen : times.length = grids.length) :
    ∃ p, p ∈ times.zip grids ∧
      flat_ERA5_data (some { times := times, vars := vars }) variableName dimension
        = Except.ok
            ((times.zip grids).map (fun q => mkRecord variableName q.1 q.2.flatten),
             decide (p.2.flatten.length ≠ dimension)) := by
  have hple : times.length ≤ grids.length := le_of_eq hlen
  have hzlen : (times.zip grids).length = times.length := by
    rw [List.length_zip]; omega
  have hne : times.zip grids ≠ [] := by
    intro hnil
    rw [hnil] at hzlen
    simp at hzlen
    omega
  refine ⟨(times.zip grids).getLast hne, List.getLast_mem hne, ?_⟩
  simp only [flat_ERA5_data, hvar, hple, if_true]
  rw [List.getLast?_eq_getLast _ hne]

/-- C1 (amended): for a gridded file containing the requested variable with
`T ≥ 1` timesteps, each an H×W grid, `flat_ERA5_data` returns exactly `T`
records, each carrying exactly `H*W` variable-value fields next to its single
timestamp field.  (With `T = 0` the post-loop dimension check raises a
`NameError`, see `flat_ERA5_data_zero_timesteps_cex`.) -/
theorem flat_ERA5_data_count (times : List Nat) (grids : List Grid2)
    (vars : List (String × List Grid2)) (variableName : String)
    (H W dimension : Nat)
    (hvar : lookupVar vars variableName = some grids)
    (hT : 1 ≤ times.length) (hlen : times.length = grids.length)
    (hgrid : ∀ g ∈ grids, g.length = H ∧ ∀ row ∈ g, row.length = W) :
    ∃ recs warn,
      flat_ERA5_data (some { times := times, vars := vars }) variableName dimension
        = Except.ok (recs, warn)
      ∧ recs.length = times.length
      ∧ ∀ rec ∈ recs, rec.fields.length = H * W := by
  obtain ⟨p, _, hrun⟩ :=
    flat_ERA5_data_ok times grids vars variableName dimension hvar hT hlen
  refine ⟨_, _, hrun, ?_, ?_⟩
  · rw [List.length_map, List.length_zip]; omega
  · intro rec hrec
    obtain ⟨q, hq, hqrec⟩ := List.mem_map.mp hrec
    obtain ⟨_, hq2⟩ := List.of_mem_zip hq
    obtain ⟨hH, hW⟩ := hgrid q.2 hq2
    rw [← hqrec, mkRecord_fields_length, flatten_length_uniform q.2 W hW, hH]

/-- Witness for C1: a two-timestep file of 2×2 grids yields two records of
four fields each. -/
theorem flat_ERA5_data_count_witness :
    ∃ recs warn,
      flat_ERA5_data (some { times := [10, 20], vars := [("t2m", gridsEx)] }) "t2m" 154
        = Except.ok (recs, warn)
      ∧ recs.length = ([10, 20] : List Nat).length
      ∧ ∀ rec ∈ recs, rec.fields.length = 2 * 2 :=
  flat_ERA5_data_count [10, 20] gridsEx [("t2m", gridsEx)] "t2m" 2 2 154
    rfl (by decide) (by decide) (by decide)

/-- Counterexample to C1 as stated: on a file whose variable is present but
whose time dimension is empty (`T = 0`), `flat_ERA5_data` raises a
`NameError` (the post-loop dimension check reads the never-bound loop
variable `flat`) instead of returning an empty record list. -/
theorem flat_ERA5_data_zero_timesteps_cex :
    flat_ERA5_data (some { times := [], vars := [("t2m", [])] }) "t2m" (11 * 14)
      = Except.error PyErr.nameError := rfl

/-- C5 (confirmed): when the flattened per-timestep length `L` differs from
the expected `dimension`, `flat_ERA5_data` returns the warning flag set and
still returns every record at its full (differently-sized) length: no
exception, no dropped or truncated records. -/
theorem flat_ERA5_data_dim_mismatch (times : List Nat) (grids : List Grid2)
    (vars : List (String × List Grid2)) (variableName : String)
    (L dimension : Nat)
    (hvar : lookupVar vars variableName = some grids)
    (hT : 1 ≤ times.length) (hlen : times.length = grids.length)
    (hL : ∀ g ∈ grids, g.flatten.length = L) (hne : L ≠ dimension) :
    ∃ recs,
      flat_ERA5_data (some { times := times, vars := vars }) variableName dimension
        = Except.ok (recs, true)
      ∧ recs.length = times.length
      ∧ ∀ rec ∈ recs, rec.fields.length = L := by
  obtain ⟨p, hp, hrun⟩ :=
    flat_ERA5_data_ok times grids vars variableName dimension hvar hT hlen
  obtain ⟨_, hp2⟩ := List.of_mem_zip hp
  have hwarn : decide (p.2.flatten.length ≠ dimension) = true := by
    rw [hL p.2 hp2]
    exact decide_eq_true hne
  refine ⟨_, by rw [hrun, hwarn], ?_, ?_⟩
  · rw [List.length_map, List.length_zip]; omega
  · intro rec hrec
    obtain ⟨q, hq, hqrec⟩ := List.mem_map.mp hrec
    obtain ⟨_, hq2⟩ := List.of_mem_zip hq
    rw [← hqrec, mkRecord_fields_length, hL q.2 hq2]

/-- Witness for C5: 2×2 grids (flattened length 4) against the default
expected dimension 154 produce the warning and both full records. -/
theorem flat_ERA5_data_dim_mismatch_witness :
    ∃ recs,
      flat_ERA5_data (some { times := [10, 20], vars := [("t2m", gridsEx)] }) "t2m" 154
        = Except.ok (recs, true)
      ∧ recs.length = ([10, 20] : List Nat).length
      ∧ ∀ rec ∈ recs, rec.fields.length = 4 :=
  flat_ERA5_data_dim_mismatch [10, 20] gridsEx [("t2m", gridsEx)] "t2m" 4 154
    rfl (by decide) (by decide) (by decide) (by decide)

/-- C9 (confirmed): when opening the dataset fails, the exception is only
printed, `ds` is never bound, and the following `variable_name not in ds`
raises a `NameError`: the call never returns a record list. -/
theorem flat_ERA5_data_open_failure (variableName : String) (dimension : Nat) :
    flat_ERA5_data none variableName dimension = Except.error PyErr.nameError := rfl

/-!  ## Lemmas about `tensor_ERA5_pytorch`  -/

theorem sliceSteps_length : ∀ (gs : List Grid2) (ts : List Nat)
    (a : List (List Grid2)) (b : List Nat),
    sliceSteps gs ts = Except.ok (a, b) → a.length = b.length := by
  intro gs
  induction gs with
  | nil =>
    intro ts a b h
    cases ts <;> simp [sliceSteps] at h <;> simp [h.1, h.2]
  | cons g gs ih =>
    intro ts a b h
    cases ts with
    | nil => simp [sliceSteps] at h
    | cons t ts =>
      simp only [sliceSteps] at h
      cases hrec : sliceSteps gs ts with
      | error e => rw [hrec] at h; simp at h
      | ok p =>
        rw [hrec] at h
        simp at h
        obtain ⟨ha, hb⟩ := h
        simp [← ha, ← hb, ih ts p.1 p.2 (by rw [hrec])]

theorem foldl_tensorStep_error (variableName : String) :
    ∀ (files : List Dataset) (e : PyErr),
    files.foldl (tensorStep variableName) (Except.error e) = Except.error e := by
  intro files
  induction files with
  | nil => intro e; rfl
  | cons ds files ih => intro e; simp [List.foldl_cons, tensorStep, ih]

theorem foldl_tensorStep_length (variableName : String) :
    ∀ (files : List Dataset) (t0 : List (List Grid2)) (s0 : List Nat)
      (t : List (List Grid2)) (s : List Nat),
    files.foldl (tensorStep variableName) (Except.ok (t0, s0)) = Except.ok (t, s) →
    t0.length = s0.length → t.length = s.length := by
  intro files
  induction files with
  | nil =>
    intro t0 s0 t s h h0
    simp at h
    rw [← h.1, ← h.2]
    exact h0
  | cons ds files ih =>
    intro t0 s0 t s h h0
    rw [List.foldl_cons] at h
    cases hlv : lookupVar ds.vars variableName with
    | none =>
      rw [show tensorStep variableName (Except.ok (t0, s0)) ds = Except.ok (t0, s0) by
        simp [tensorStep, hlv]] at h
      exact ih t0 s0 t s h h0
    | some grids =>
      cases hss : sliceSteps grids ds.times with
      | error e =>
        rw [show tensorStep variableName (Except.ok (t0, s0)) ds = Except.error e by
          simp [tensorStep, hlv, hss]] at h
        rw [foldl_tensorStep_error] at h
        simp at h
      | ok p =>
        rw [show tensorStep variableName (Except.ok (t0, s0)) ds
            = Except.ok (t0 ++ p.1, s0 ++ p.2) by simp [tensorStep, hlv, hss]] at h
        refine ih _ _ t s h ?_
        have := sliceSteps_length grids ds.times p.1 p.2 (by rw [hss])
        simp [h0, this]

/-- C4 (confirmed): whenever `tensor_ERA5_pytorch` returns a result, the
first dimension of the stacked array equals the length of the returned
timestamp list (one slice and one timestamp are appended per timestep, in
directory-walk order, not chronological order). -/
theorem tensor_ERA5_pytorch_len_eq (files : List Dataset) (variableName : String)
    (tensors : List (List Grid2)) (timestamps : List Nat)
    (h : tensor_ERA5_pytorch files variableName = Except.ok (tensors, timestamps)) :
    tensors.length = timestamps.length := by
  unfold tensor_ERA5_pytorch at h
  cases hf : files.foldl (tensorStep variableName) (Except.ok ([], [])) with
  | error e => rw [hf] at h; simp at h
  | ok p =>
    obtain ⟨t1, t2⟩ := p
    rw [hf] at h
    by_cases hemp : t1.isEmpty
    · simp [hemp] at h
    · simp [hemp] at h
      obtain ⟨h1, h2⟩ := h
      subst h1
      subst h2
      exact foldl_tensorStep_length variableName files [] [] _ _ hf rfl

/-- Witness for C4: one single-timestep file containing the variable. -/
theorem tensor_ERA5_pytorch_len_eq_witness :
    ∃ p, tensor_ERA5_pytorch [{ times := [7], vars := [("t2m", [[[1]]])] }] "t2m"
        = Except.ok p ∧ p.1.length = p.2.length :=
  ⟨([[[[1]]]], [7]), rfl,
    tensor_ERA5_pytorch_len_eq [{ times := [7], vars := [("t2m", [[[1]]])] }] "t2m"
      [[[[1]]]] [7] rfl⟩

theorem foldl_tensorStep_skip (variableName : String) :
    ∀ (files : List Dataset),
    (∀ ds ∈ files, lookupVar ds.vars variableName = none) →
    files.foldl (tensorStep variableName) (Except.ok ([], []))
      = Except.ok ([], []) := by
  intro files
  induction files with
  | nil => intro _; rfl
  | cons ds files ih =>
    intro hall
    rw [List.foldl_cons,
      show tensorStep variableName (Except.ok ([], [])) ds = Except.ok ([], []) by
        simp [tensorStep, hall ds (by simp)]]
    exact ih (fun d hd => hall d (by simp [hd]))

/-- C10 (confirmed): when no scanned file contains the requested variable
(including an empty directory tree), `tensor_ERA5_pytorch` raises the
`ValueError` of `np.stack([])` instead of returning an empty array with an
empty timestamp list. -/
theorem tensor_ERA5_pytorch_no_variable (files : List Dataset)
    (variableName : String)
    (h : ∀ ds ∈ files, lookupVar ds.vars variableName = none) :
    tensor_ERA5_pytorch files variableName = Except.error PyErr.valueError := by
  unfold tensor_ERA5_pytorch
  rw [foldl_tensorStep_skip variableName files h]
  simp

/-- Witness for C10: a tree holding one file with only the variable `tp`,
scanned for `t2m`. -/
theorem tensor_ERA5_pytorch_no_variable_witness :
    tensor_ERA5_pytorch [{ times := [1], vars := [("tp", [[[2]]])] }] "t2m"
      = Except.error PyErr.valueError :=
  tensor_ERA5_pytorch_no_variable [{ times := [1], vars := [("tp", [[[2]]])] }] "t2m"
    (by intro ds hds; simp at hds; rw [hds]; rfl)

/-!  ## Lemmas about `filter_river_data`  -/

theorem dropDupFirst_subset : ∀ (l : List (Nat × Rat)) (seen : List Nat)
    (p : Nat × Rat), p ∈ dropDupFirst seen l → p ∈ l := by
  intro l
  induction l with
  | nil => intro seen p h; simp [dropDupFirst] at h
  | cons r rs ih =>
    intro seen p h
    unfold dropDupFirst at h
    by_cases hs : r.1 ∈ seen
    · simp only [if_pos hs] at h
      exact List.mem_cons_of_mem r (ih seen p h)
    · simp only [if_neg hs, List.mem_cons] at h
      rcases h with h | h
      · exact h ▸ List.mem_cons_self r rs
      · exact List.mem_cons_of_mem r (ih (r.1 :: seen) p h)

theorem dropDupFirst_keys : ∀ (l : List (Nat × Rat)) (seen : List Nat),
    ((dropDupFirst seen l).map Prod.fst).Nodup
    ∧ ∀ k ∈ (dropDupFirst seen l).map Prod.fst, k ∉ seen := by
  intro l
  induction l with
  | nil => intro seen; simp [dropDupFirst]
  | cons r rs ih =>
    intro seen
    unfold dropDupFirst
    by_cases hs : r.1 ∈ seen
    · simpa [if_pos hs] using ih seen
    · obtain ⟨ihnd, ihseen⟩ := ih (r.1 :: seen)
      simp only [if_neg hs, List.map_cons, List.nodup_cons, List.mem_cons]
      refine ⟨⟨fun hmem => ?_, ihnd⟩, fun k hk => ?_⟩
      · exact (ihseen r.1 hmem) (List.mem_cons_self _ _)
      · rcases hk with hk | hk
        · exact hk ▸ hs
        · intro hkseen
          exact (ihseen k hk) (List.mem_cons_of_mem _ hkseen)

theorem dropDupFirst_first_occurrence : ∀ (l : List (Nat × Rat))
    (seen : List Nat) (p : Nat × Rat), p ∈ dropDupFirst seen l →
    p.1 ∉ seen ∧ l.find? (fun q => q.1 == p.1) = some p := by
  intro l
  induction l with
  | nil => intro seen p h; simp [dropDupFirst] at h
  | cons r rs ih =>
    intro seen p h
    unfold dropDupFirst at h
    by_cases hs : r.1 ∈ seen
    · simp only [if_pos hs] at h
      obtain ⟨hns, hfind⟩ := ih seen p h
      refine ⟨hns, ?_⟩
      rw [List.find?_cons_of_neg]
      · exact hfind
      · simp only [beq_iff_eq]
        intro heq
        exact hns (heq ▸ hs)
    · simp only [if_neg hs, List.mem_cons] at h
      rcases h with h | h
      · subst h
        refine ⟨hs, ?_⟩
        rw [List.find?_cons_of_pos]
        simp
      · obtain ⟨hns, hfind⟩ := ih (r.1 :: seen) p h
        have hne1 : p.1 ≠ r.1 := fun hc => hns (by simp [hc])
        refine ⟨fun hc => hns (List.mem_cons_of_mem _ hc), ?_⟩
        rw [List.find?_cons_of_neg]
        · exact hfind
        · simp only [beq_iff_eq]
          exact fun hc => hne1 hc.symm

/-- C2 (confirmed): when at least one file matches the station code,
`filter_river_data` returns a table in which every row stems from an input
row with `battery ≥ battery_treshold` and `level ≥ 0`, no two rows share a
datetime, and for each datetime the row kept is the first occurrence, in
directory-walk concatenation order, among the concatenated filtered
per-file frames. -/
theorem filter_river_data_spec (files : List (List RiverRow))
    (battery_treshold : Rat) (out : List (Nat × Rat))
    (h : filter_river_data files battery_treshold = some out) :
    (∀ p ∈ out, ∃ r, r ∈ files.flatten ∧ battery_treshold ≤ r.battery
        ∧ 0 ≤ r.level ∧ p = (r.dt, r.level))
    ∧ (out.map Prod.fst).Nodup
    ∧ ∀ p ∈ out,
        ((river_frames files battery_treshold).flatten).find?
          (fun q => q.1 == p.1) = some p := by
  have hout : out = dropDupFirst [] (river_frames files battery_treshold).flatten := by
    unfold filter_river_data at h
    by_cases hemp : (river_frames files battery_treshold).isEmpty
    · simp [hemp] at h
    · simp [hemp] at h
      exact h.symm
  refine ⟨?_, ?_, ?_⟩
  · intro p hp
    have hpf : p ∈ (river_frames files battery_treshold).flatten :=
      dropDupFirst_subset _ [] p (hout ▸ hp)
    obtain ⟨frame, hframe, hpframe⟩ := List.mem_flatten.mp hpf
    obtain ⟨df, hdf, hdfframe⟩ := List.mem_map.mp hframe
    rw [← hdfframe] at hpframe
    obtain ⟨r, hr, hrp⟩ := List.mem_map.mp hpframe
    obtain ⟨hrdf, hkeep⟩ := List.mem_filter.mp hr
    unfold river_keep at hkeep
    simp only [Bool.and_eq_true, decide_eq_true_eq] at hkeep
    exact ⟨r, List.mem_flatten.mpr ⟨df, hdf, hrdf⟩, hkeep.1, hkeep.2, hrp.symm⟩
  · exact hout ▸ (dropDupFirst_keys _ []).1
  · intro p hp
    exact (dropDupFirst_first_occurrence _ [] p (hout ▸ hp)).2

/-- Example input of `filter_river_data`: one matched file with a duplicate
datetime, a low-battery row and nothing else. -/
def riverFilesEx : List (List RiverRow) :=
  [[{ dt := 1, battery := 13, level := 5 },
    { dt := 1, battery := 13, level := 7 },
    { dt := 2, battery := 10, level := 3 }]]

/-- Witness for C2: on `riverFilesEx` with threshold 12 the function keeps
only the first filtered row `(1, 5)`. -/
theorem filter_river_data_spec_witness :
    (∀ p ∈ [((1 : Nat), (5 : Rat))], ∃ r, r ∈ riverFilesEx.flatten
        ∧ (12 : Rat) ≤ r.battery ∧ 0 ≤ r.level ∧ p = (r.dt, r.level))
    ∧ (([((1 : Nat), (5 : Rat))]).map Prod.fst).Nodup
    ∧ ∀ p ∈ [((1 : Nat), (5 : Rat))],
        ((river_frames riverFilesEx 12).flatten).find?
          (fun q => q.1 == p.1) = some p :=
  filter_river_data_spec riverFilesEx 12 [(1, 5)] rfl

/-!  ## Lemmas about the merge step  -/

theorem keys_mergeLeftRow (R : MTable) (l : Nat × List (Option Rat)) (k : Nat) :
    k ∈ (mergeLeftRow R l).map Prod.fst ↔ k = l.1 := by
  unfold mergeLeftRow
  rcases hms : R.rows.filter (fun r => r.1 == l.1) with _ | ⟨r0, ms'⟩
  · rw [hms]
    simp
  · rw [hms, if_neg (by simp), List.map_map]
    constructor
    · intro h
      obtain ⟨a, ha, hk⟩ := List.mem_map.mp h
      simp only [Function.comp_apply] at hk
      exact hk.symm
    · intro hk
      refine List.mem_map.mpr ⟨r0, by simp, ?_⟩
      simp only [Function.comp_apply]
      exact hk.symm

theorem keys_unmatchedRight_subset (L R : MTable) (k : Nat)
    (h : k ∈ (unmatchedRight L R).map Prod.fst) : k ∈ R.rows.map Prod.fst := by
  unfold unmatchedRight at h
  simp only [List.map_map, List.mem_map, Function.comp] at h
  obtain ⟨r, hr, hk⟩ := h
  exact List.mem_map.mpr ⟨r, (List.mem_filter.mp hr).1, hk⟩

theorem keys_unmatchedRight_of (L R : MTable) (k : Nat)
    (hR : k ∈ R.rows.map Prod.fst) (hL : k ∉ L.rows.map Prod.fst) :
    k ∈ (unmatchedRight L R).map Prod.fst := by
  obtain ⟨r, hr, hk⟩ := List.mem_map.mp hR
  unfold unmatchedRight
  simp only [List.map_map, List.mem_map, Function.comp]
  refine ⟨r, List.mem_filter.mpr ⟨hr, ?_⟩, hk⟩
  rw [List.all_eq_true]
  intro l hl
  rw [bne_iff_ne]
  intro hc
  exact hL (List.mem_map.mpr ⟨l, hl, hc.trans hk⟩)

theorem keys_outerMerge (L R : MTable) (k : Nat) :
    k ∈ (outerMerge L R).rows.map Prod.fst
      ↔ k ∈ L.rows.map Prod.fst ∨ k ∈ R.rows.map Prod.fst := by
  unfold outerMerge
  simp only [List.map_append, List.mem_append]
  constructor
  · rintro (h | h)
    · rw [List.map_flatMap] at h
      obtain ⟨l, hl, hk⟩ := List.mem_flatMap.mp h
      exact Or.inl (List.mem_map.mpr ⟨l, hl, ((keys_mergeLeftRow R l k).mp hk).symm⟩)
    · exact Or.inr (keys_unmatchedRight_subset L R k h)
  · rintro (h | h)
    · obtain ⟨l, hl, hk⟩ := List.mem_map.mp h
      refine Or.inl ?_
      rw [List.map_flatMap]
      exact List.mem_flatMap.mpr ⟨l, hl, (keys_mergeLeftRow R l k).mpr hk.symm⟩
    · by_cases hL : k ∈ L.rows.map Prod.fst
      · obtain ⟨l, hl, hk⟩ := List.mem_map.mp hL
        refine Or.inl ?_
        rw [List.map_flatMap]
        exact List.mem_flatMap.mpr ⟨l, hl, (keys_mergeLeftRow R l k).mpr hk.symm⟩
      · exact Or.inr (keys_unmatchedRight_of L R k h hL)

theorem keys_foldl_outerMerge : ∀ (ds : List MTable) (d : MTable) (k : Nat),
    k ∈ (ds.foldl outerMerge d).rows.map Prod.fst
      ↔ k ∈ d.rows.map Prod.fst ∨ ∃ t ∈ ds, k ∈ t.rows.map Prod.fst := by
  intro ds
  induction ds with
  | nil => intro d k; simp
  | cons t ts ih =>
    intro d k
    rw [List.foldl_cons, ih (outerMerge d t) k, keys_outerMerge,
      List.exists_mem_cons_iff]
    tauto

theorem mem_insertRow (r x : Nat × List (Option Rat)) :
    ∀ (l : List (Nat × List (Option Rat))),
    x ∈ insertRow r l ↔ x = r ∨ x ∈ l := by
  intro l
  induction l with
  | nil => simp [insertRow]
  | cons a as ih =>
    unfold insertRow
    by_cases hle : r.1 ≤ a.1
    · simp [if_pos hle]
    · simp only [if_neg hle, List.mem_cons, ih]
      tauto

theorem mem_sortRows (x : Nat × List (Option Rat)) :
    ∀ (l : List (Nat × List (Option Rat))), x ∈ sortRows l ↔ x ∈ l := by
  intro l
  induction l with
  | nil => simp [sortRows]
  | cons a as ih =>
    unfold sortRows
    rw [mem_insertRow, ih, List.mem_cons]

theorem sorted_insertRow (r : Nat × List (Option Rat)) :
    ∀ (l : List (Nat × List (Option Rat))),
    l.Pairwise (fun a b => a.1 ≤ b.1) →
    (insertRow r l).Pairwise (fun a b => a.1 ≤ b.1) := by
  intro l
  induction l with
  | nil => intro _; simp [insertRow]
  | cons a as ih =>
    intro h
    rw [List.pairwise_cons] at h
    unfold insertRow
    by_cases hle : r.1 ≤ a.1
    · rw [if_pos hle, List.pairwise_cons]
      refine ⟨?_, List.pairwise_cons.mpr h⟩
      intro b hb
      rcases List.mem_cons.mp hb with hb | hb
      · exact hb ▸ hle
      · exact le_trans hle (h.1 b hb)
    · rw [if_neg hle, List.pairwise_cons]
      refine ⟨?_, ih h.2⟩
      intro b hb
      rcases (mem_insertRow r b as).mp hb with hb | hb
      · exact hb ▸ Nat.le_of_not_le hle
      · exact h.1 b hb

theorem sorted_sortRows : ∀ (l : List (Nat × List (Option Rat))),
    (sortRows l).Pairwise (fun a b => a.1 ≤ b.1) := by
  intro l
  induction l with
  | nil => simp [sortRows]
  | cons a as ih => exact sorted_insertRow a (sortRows as) ih

/-- C3 (confirmed): for a nonempty collection of per-river series, the
pairwise outer join on `datetime` followed by the final sort produces a
table whose timestamp set is exactly the union of the inputs' timestamp
sets and whose rows are sorted ascending by timestamp. -/
theorem merged_df_spec (d : MTable) (ds : List MTable) :
    ∃ m, merged_df (d :: ds) = some m
      ∧ (∀ k, k ∈ m.rows.map Prod.fst
            ↔ ∃ t ∈ d :: ds, k ∈ t.rows.map Prod.fst)
      ∧ List.Sorted (fun a b => a ≤ b) (m.rows.map Prod.fst) := by
  refine ⟨_, rfl, ?_, ?_⟩
  · intro k
    show k ∈ (sortRows (ds.foldl outerMerge d).rows).map Prod.fst ↔ _
    rw [List.exists_mem_cons_iff]
    constructor
    · intro h
      obtain ⟨x, hx, hk⟩ := List.mem_map.mp h
      have hx' := (mem_sortRows x _).mp hx
      have := (keys_foldl_outerMerge ds d k).mp (List.mem_map.mpr ⟨x, hx', hk⟩)
      tauto
    · intro h
      have : k ∈ ((ds.foldl outerMerge d).rows).map Prod.fst :=
        (keys_foldl_outerMerge ds d k).mpr (by tauto)
      obtain ⟨x, hx, hk⟩ := List.mem_map.mp this
      exact List.mem_map.mpr ⟨x, (mem_sortRows x _).mpr hx, hk⟩
  · show List.Pairwise _ ((sortRows (ds.foldl outerMerge d).rows).map Prod.fst)
    exact (sorted_sortRows _).map Prod.fst (fun a b hab => hab)

/-!  ## Lemmas about `get_station_id_basin_map`  -/

theorem mem_keys_dictInsert : ∀ (d : List (String × StationInfo)) (k : String)
    (v : StationInfo) (m : String),
    m ∈ (dictInsert d k v).map Prod.fst ↔ m = k ∨ m ∈ d.map Prod.fst := by
  intro d
  induction d with
  | nil => intro k v m; simp [dictInsert]
  | cons kv rest ih =>
    intro k v m
    unfold dictInsert
    by_cases hk : kv.1 = k
    · rw [if_pos hk]
      simp only [List.map_cons, List.mem_cons]
      rw [← hk]
      tauto
    · rw [if_neg hk]
      simp only [List.map_cons, List.mem_cons, ih]
      tauto

theorem mem_dictInsert : ∀ (d : List (String × StationInfo)) (k : String)
    (v : StationInfo) (p : String × StationInfo),
    p ∈ dictInsert d k v → p = (k, v) ∨ p ∈ d := by
  intro d
  induction d with
  | nil => intro k v p h; simp [dictInsert] at h; simp [h]
  | cons kv rest ih =>
    intro k v p h
    unfold dictInsert at h
    by_cases hk : kv.1 = k
    · rw [if_pos hk] at h
      rcases List.mem_cons.mp h with h | h
      · exact Or.inl h
      · exact Or.inr (List.mem_cons_of_mem kv h)
    · rw [if_neg hk] at h
      rcases List.mem_cons.mp h with h | h
      · exact Or.inr (h ▸ List.mem_cons_self kv rest)
      · rcases ih k v p h with h | h
        · exact Or.inl h
        · exact Or.inr (List.mem_cons_of_mem kv h)

theorem station_foldl_keys : ∀ (l : List StationEntry)
    (acc : List (String × StationInfo)) (m : String),
    m ∈ (l.foldl (fun acc e =>
          dictInsert acc e.id { name := e.name, basin := e.basin }) acc).map Prod.fst
      ↔ m ∈ acc.map Prod.fst ∨ m ∈ l.map (fun e => e.id) := by
  intro l
  induction l with
  | nil => intro acc m; simp
  | cons e es ih =>
    intro acc m
    rw [List.foldl_cons, ih, mem_keys_dictInsert, List.map_cons,
      List.mem_cons]
    tauto

theorem station_foldl_values : ∀ (l : List StationEntry)
    (acc : List (String × StationInfo)) (p : String × StationInfo),
    p ∈ l.foldl (fun acc e =>
        dictInsert acc e.id { name := e.name, basin := e.basin }) acc →
    p ∈ acc ∨ ∃ e, e ∈ l ∧ e.id = p.1 ∧ p.2 = { name := e.name, basin := e.basin } := by
  intro l
  induction l with
  | nil => intro acc p h; exact Or.inl h
  | cons e es ih =>
    intro acc p h
    rw [List.foldl_cons] at h
    rcases ih _ p h with h | ⟨e', he', hid, hinfo⟩
    · rcases mem_dictInsert acc e.id _ p h with h | h
      · refine Or.inr ⟨e, List.mem_cons_self e es, ?_, ?_⟩ <;> rw [h]
      · exact Or.inl h
    · exact Or.inr ⟨e', List.mem_cons_of_mem e he', hid, hinfo⟩

/-- C6 (amended): on a successful fetch whose body holds the station entry
list, the returned mapping's key set is exactly the set of entry ids, and
each key maps to the name and basin of an entry carrying that id.  No
non-emptiness of `name`/`basin` is guaranteed: the code copies the entry
fields unchecked (see `get_station_id_basin_map_cex`). -/
theorem get_station_id_basin_map_spec (station_list : List StationEntry) :
    (∀ k, k ∈ (get_station_id_basin_map station_list).map Prod.fst
        ↔ k ∈ station_list.map (fun e => e.id))
    ∧ ∀ p ∈ get_station_id_basin_map station_list,
        ∃ e, e ∈ station_list ∧ e.id = p.1
          ∧ p.2 = { name := e.name, basin := e.basin } := by
  constructor
  · intro k
    unfold get_station_id_basin_map
    rw [station_foldl_keys]
    simp
  · intro p hp
    unfold get_station_id_basin_map at hp
    rcases station_foldl_values station_list [] p hp with h | h
    · simp at h
    · exact h

/-- Counterexample to C6 as stated: an entry with an empty name is copied
into the mapping unchanged, so the claim that every value has non-empty
name and basin fails. -/
theorem get_station_id_basin_map_cex :
    get_station_id_basin_map [{ id := "237", name := "", basin := "Morava" }]
      = [("237", { name := "", basin := "Morava" })]
    ∧ ¬ (∀ p ∈ get_station_id_basin_map
          [{ id := "237", name := "", basin := "Morava" }],
          p.2.name ≠ "" ∧ p.2.basin ≠ "") := by
  refine ⟨rfl, fun hall => ?_⟩
  have hmem : ("237", ({ name := "", basin := "Morava" } : StationInfo))
      ∈ get_station_id_basin_map [{ id := "237", name := "", basin := "Morava" }] := by
    rw [show get_station_id_basin_map [{ id := "237", name := "", basin := "Morava" }]
        = [("237", { name := "", basin := "Morava" })] from rfl]
    exact List.mem_singleton.mpr rfl
  exact (hall _ hmem).1 rfl

/-!  ## Lemmas about `extract_protok_data`  -/

/-- C7 (confirmed): a filename without the `Protok_DD.MM.YYYY` date pattern
yields an empty sequence; a matching filename yields at most 24 rows, each
consisting of the date field followed by the first at-most-three numbers of
a recognized line that produced at least two numbers. -/
theorem extract_protok_data_spec (image_path : String) (ocrLines : List String) :
    (searchProtokDate (basename image_path).toList = none →
        extract_protok_data image_path ocrLines = [])
    ∧ (extract_protok_data image_path ocrLines).length ≤ 24
    ∧ ∀ row ∈ extract_protok_data image_path ocrLines,
        ∃ d line, searchProtokDate (basename image_path).toList = some d
          ∧ line ∈ ocrLines ∧ 2 ≤ (lineNums line).length
          ∧ row = d :: (lineNums line).take 3 := by
  have hun : extract_protok_data image_path ocrLines
      = match searchProtokDate (basename image_path).toList with
        | none => []
        | some date_str =>
          (ocrLines.filterMap (fun line =>
            if 2 ≤ (lineNums line).length
            then some (date_str :: (lineNums line).take 3) else none)).take 24 := rfl
  cases hsd : searchProtokDate (basename image_path).toList with
  | none =>
    rw [hsd] at hun
    have hempty : extract_protok_data image_path ocrLines = [] := hun
    refine ⟨fun _ => hempty, ?_, fun row hrow => ?_⟩
    · rw [hempty]
      simp
    · rw [hempty] at hrow
      cases hrow
  | some d =>
    rw [hsd] at hun
    have hrun : extract_protok_data image_path ocrLines
        = (ocrLines.filterMap (fun line =>
            if 2 ≤ (lineNums line).length
            then some (d :: (lineNums line).take 3) else none)).take 24 := hun
    refine ⟨fun hc => ?_, ?_, fun row hrow => ?_⟩
    · cases hc
    · rw [hrun]
      exact List.length_take_le 24 _
    · rw [hrun] at hrow
      have hrow' := List.mem_of_mem_take hrow
      obtain ⟨line, hline, hf⟩ := List.mem_filterMap.mp hrow'
      by_cases hok : 2 ≤ (lineNums line).length
      · refine ⟨d, line, rfl, hline, hok, ?_⟩
        rw [if_pos hok] at hf
        exact (Option.some.injEq _ _ ▸ hf).symm
      · rw [if_neg hok] at hf
        cases hf

/-!  ## Lemmas about `save_daily_data`  -/

theorem elev_mem_renameKota (cols : List String) (h : "kota" ∈ cols) :
    "elev" ∈ renameKota cols := by
  refine List.mem_map.mpr ⟨"kota", h, ?_⟩
  simp [renameKota]

theorem kota_not_mem_renameKota (cols : List String) :
    "kota" ∉ renameKota cols := by
  intro h
  obtain ⟨c, _, hc⟩ := List.mem_map.mp h
  by_cases hck : c = "kota"
  · rw [if_pos hck] at hc
    exact absurd hc (by decide)
  · rw [if_neg hck] at hc
    exact hck hc

/-- C8 (confirmed): `save_daily_data` signals a configuration error exactly
when the format is neither `"csv"` nor `"parquet"` and writes nothing in
that case; for a supported format it writes exactly one file named
`station_<id>_<YYYYMMDD>.<ext>` whose table carries `elev` (renamed from
`kota`) and no column named `kota`. -/
theorem save_daily_data_spec (recCols : List String) (station_id : String)
    (dateYMD : String) (format : String) :
    ((∃ msg, save_daily_data recCols station_id dateYMD format
        = Except.error msg) ↔ (format ≠ "csv" ∧ format ≠ "parquet"))
    ∧ ∀ fn outCols,
        save_daily_data recCols station_id dateYMD format
          = Except.ok (fn, outCols) →
        fn = "station_" ++ station_id ++ "_" ++ dateYMD ++ "." ++ format
        ∧ ("kota" ∈ recCols → "elev" ∈ outCols)
        ∧ "kota" ∉ outCols := by
  by_cases h1 : format = "csv"
  · subst h1
    have hrun : save_daily_data recCols station_id dateYMD "csv"
        = Except.ok ("station_" ++ station_id ++ "_" ++ dateYMD ++ ".csv",
            renameKota recCols) := rfl
    constructor
    · rw [hrun]
      simp
    · intro fn outCols h
      rw [hrun] at h
      simp only [Except.ok.injEq, Prod.mk.injEq] at h
      refine ⟨?_, ?_, ?_⟩
      · rw [← h.1]
        conv_rhs => rw [String.append_assoc]
        congr 1
      · intro hk
        rw [← h.2]
        exact elev_mem_renameKota recCols hk
      · rw [← h.2]
        exact kota_not_mem_renameKota recCols
  · by_cases h2 : format = "parquet"
    · subst h2
      have hrun : save_daily_data recCols station_id dateYMD "parquet"
          = Except.ok ("station_" ++ station_id ++ "_" ++ dateYMD ++ ".parquet",
              renameKota recCols) := by
        simp [save_daily_data, h1]
      constructor
      · rw [hrun]
        simp
      · intro fn outCols h
        rw [hrun] at h
        simp only [Except.ok.injEq, Prod.mk.injEq] at h
        refine ⟨?_, ?_, ?_⟩
        · rw [← h.1]
          conv_rhs => rw [String.append_assoc]
          congr 1
        · intro hk
          rw [← h.2]
          exact elev_mem_renameKota recCols hk
        · rw [← h.2]
          exact kota_not_mem_renameKota recCols
    · have hrun : save_daily_data recCols station_id dateYMD format
          = Except.error ("Format " ++ format
              ++ " cannot be selected, Please choose between csv and parquet.") := by
        simp only [save_daily_data]
        rw [if_neg h1, if_neg h2]
      constructor
      · rw [hrun]
        constructor
        · intro _
          exact ⟨h1, h2⟩
        · intro _
          exact ⟨_, rfl⟩
      · intro fn outCols h
        rw [hrun] at h
        cases h

end DiHydro
